import Mathlib

/-!
Verification of the derived-table propagation and lifecycle core of a
column-oriented analytical database, against its natural-language design
specification.  The definitions below are shallow embeddings of the C++
sources:

* `copyData`                      — dbms/src/DataStreams/copyData.cpp
* `PushingToViewsBlockOutputStream` (prefix/suffix/flush broadcast)
                                  — dbms/src/DataStreams/PushingToViewsBlockOutputStream.h
* `StorageMaterializedView.refresh` — src/Storages/StorageMaterializedView.cpp
* `ExternalLoader` (registry accessors, retry backoff, update check)
                                  — dbms/src/Interpreters/ExternalLoader.cpp
* `DictionaryStructure`           — dbms/src/Dictionaries/DictionaryStructure.cpp
* `StorageAggregatingMemory`      — src/Storages/StorageAggregatingMemory.cpp

Machine integers in the modelled code are used as non-negative counters and
timestamps well below overflow, so they are embedded as `Nat`.  Randomness
(`std::uniform_int_distribution`) is embedded by passing the drawn value as an
explicit argument; the range constraint of the distribution becomes a
hypothesis.  C++ exceptions are embedded as `Except`/`Option` error results.
-/

namespace ClickHouse

/-! ## Block Pipe Copier (dbms/src/DataStreams/copyData.cpp) -/

/-- `BlockInfo`: the two frame markers carried by every block. -/
structure BlockInfo where
  is_start_frame : Bool
  is_end_frame : Bool
deriving Repr, DecidableEq

/-- A block: an opaque columnar batch (payload abstracted to a tag) plus its
frame markers. -/
structure Block where
  info : BlockInfo
  data : Nat
deriving Repr, DecidableEq

/-- Profiling info optionally exposed by the source stream
(`IProfilingBlockInputStream`): mirrors the three pieces `copyData` forwards. -/
structure ProfileInfo where
  has_applied_limit : Bool
  rows_before_limit : Nat
  totals : Option Block
  extremes : Option Block
deriving Repr, DecidableEq

/-- The calls `copyData` can issue on the destination sink `to`. -/
inductive OutEvent where
  | setSampleBlock (b : Block)
  | writePrefix
  | write (b : Block)
  | writeSuffix
  | setRowsBeforeLimit (n : Nat)
  | setTotals (b : Option Block)
  | setExtremes (b : Option Block)
deriving Repr, DecidableEq

/-- The cancellation flag `std::atomic<bool> * is_cancelled`.  A null pointer
is `none`; a non-null pointer is modelled as an oracle giving the value the
atomic holds at the time of the `t`-th `isAtomicSet` call made by `copyData`. -/
def CancelFlag := Option (Nat → Bool)

/-- `isAtomicSet(val)`: `(val != nullptr) && val->load(seq_cst)`. -/
def isAtomicSet (val : CancelFlag) (t : Nat) : Bool :=
  match val with
  | none => false
  | some f => f t

/-- The `while (Block block = from.read())` loop of `copyData`.  State:
`t` counts `isAtomicSet` calls so far, `open_frame` and `no_data` are the two
loop variables.  Returns the destination events emitted by the loop, the final
`open_frame`, the final `no_data` and the next check index. -/
def copyDataGo (cancel : CancelFlag) :
    Nat → Bool → Bool → List Block → (List OutEvent × Bool × Bool × Nat)
  | t, open_frame, no_data, [] => ([], open_frame, no_data, t)
  | t, open_frame, _, b :: rest =>
    -- `no_data = false;` happens before the cancellation check
    if isAtomicSet cancel t then
      ([], open_frame, false, t + 1)    -- `break`
    else
      let pre : List OutEvent :=
        if !open_frame || b.info.is_start_frame then
          [.setSampleBlock b, .writePrefix]
        else []
      let o1 : Bool := if !open_frame || b.info.is_start_frame then true else open_frame
      let sfx : List OutEvent := if b.info.is_end_frame then [.writeSuffix] else []
      let o2 : Bool := if b.info.is_end_frame then false else o1
      let res := copyDataGo cancel (t + 1) o2 false rest
      (pre ++ (.write b :: sfx) ++ res.1, res.2)

/-- The profiling forwarding block of `copyData` (executed when the source is
an `IProfilingBlockInputStream`). -/
def profileEvents : Option ProfileInfo → List OutEvent
  | none => []
  | some p =>
    (if p.has_applied_limit then [.setRowsBeforeLimit p.rows_before_limit] else [])
      ++ [.setTotals p.totals, .setExtremes p.extremes]

/-- `copyData(from, to, is_cancelled)`: the full sequence of calls issued on
the destination sink.  `input` is the sequence of blocks `from.read()`
delivers; `prof` is the profiling info the source exposes, if any. -/
def copyData (input : List Block) (prof : Option ProfileInfo) (cancel : CancelFlag) :
    List OutEvent :=
  let r := copyDataGo cancel 0 false true input
  let evs := r.1
  let open_frame := r.2.1
  let no_data := r.2.2.1
  let t := r.2.2.2
  let evs2 := if no_data then evs ++ [OutEvent.writePrefix] else evs
  let open2 := if no_data then true else open_frame
  if isAtomicSet cancel t then evs2
  else
    let evs3 := evs2 ++ profileEvents prof
    if isAtomicSet cancel (t + 1) then evs3
    else evs3 ++ (if open2 then [OutEvent.writeSuffix] else [])

/-- The frame-boundary projection of a destination event: `writePrefix`,
`write` and `writeSuffix` are the calls the frame well-formedness invariant
talks about; sample-block and profiling calls are dropped. -/
inductive FrameEvent where
  | pfx
  | write
  | sfx
deriving Repr, DecidableEq

/-- Project a destination call sequence onto its frame events. -/
def projFrames : List OutEvent → List FrameEvent
  | [] => []
  | .writePrefix :: r => .pfx :: projFrames r
  | .write _ :: r => .write :: projFrames r
  | .writeSuffix :: r => .sfx :: projFrames r
  | _ :: r => projFrames r

/-- Number of `writePrefix` calls in a frame-event sequence. -/
def countPfx : List FrameEvent → Nat
  | [] => 0
  | .pfx :: r => countPfx r + 1
  | _ :: r => countPfx r

/-- Number of `writeSuffix` calls in a frame-event sequence. -/
def countSfx : List FrameEvent → Nat
  | [] => 0
  | .sfx :: r => countSfx r + 1
  | _ :: r => countSfx r

/-- Scanner for the frame grammar `(prefix write⁺ suffix)*`, with state
`none` = no frame open, `some w` = frame open with `w` intervening writes so
far.  Returns the final state, or `none` if the sequence violates the
grammar. -/
def scanFE : Option Nat → List FrameEvent → Option (Option Nat)
  | s, [] => some s
  | none, .pfx :: r => scanFE (some 0) r
  | none, .write :: _ => none
  | none, .sfx :: _ => none
  | some _, .pfx :: _ => none
  | some w, .write :: r => scanFE (some (w + 1)) r
  | some w, .sfx :: r => if 1 ≤ w then scanFE none r else none

/-- A frame-event sequence is a complete list of well-formed frames: each
suffix is preceded by a matching prefix with at least one write in between,
and no frame is left open. -/
def framesWellFormed (l : List FrameEvent) : Bool :=
  scanFE none l == some none

/-- Input well-formedness relative to the copier's frame automaton: a block
with `is_start_frame` set arrives only while no frame is open.  After the
copier processes any block, the frame is open iff that block did not carry
`is_end_frame`, so the state entering each block is determined by its
predecessor. -/
def wfFrom : Bool → List Block → Bool
  | _, [] => true
  | o, b :: r => (!b.info.is_start_frame || !o) && wfFrom (!b.info.is_end_frame) r

/-- Correspondence between the copier's `open_frame` flag and the scanner
state: a closed frame corresponds to `none`, an open frame to `some w` with at
least one write already emitted. -/
def stateOk : Bool → Option Nat → Bool
  | false, s => s == none
  | true, some w => decide (1 ≤ w)
  | true, none => false

/-- Number of frames the scanner state holds open (0 or 1). -/
def opensFE : Option Nat → Nat
  | none => 0
  | some _ => 1

/-! ## Dataflow Fan-out Writer
(dbms/src/DataStreams/PushingToViewsBlockOutputStream.h)

Sinks (`IBlockOutputStream` instances) are identified by opaque ids, storages
likewise.  The class holds the primary sink `output` (null when the storage
has no direct sink or `no_destination` was passed) and the vector `views` of
`(StoragePtr, BlockOutputStreamPtr)` pairs. -/

/-- Identifier of a destination sink object. -/
abbrev SinkId := Nat

/-- Identifier of a storage object. -/
abbrev StorageId := Nat

/-- The broadcastable sink operations of the header. -/
inductive SinkOp where
  | writePrefix
  | writeSuffix
  | flush
deriving Repr, DecidableEq

/-- One call issued on a sink. -/
structure SinkCall where
  target : SinkId
  op : SinkOp
deriving Repr, DecidableEq

/-- The state held by a constructed `PushingToViewsBlockOutputStream`:
the primary output sink (possibly null) and the dependent views with their
sub-writers. -/
structure PushingToViewsBlockOutputStream where
  output : Option SinkId
  views : List (StorageId × SinkId)
deriving Repr, DecidableEq

namespace PushingToViewsBlockOutputStream

/-- `writePrefix()`: `if (output) output->writePrefix();` — the calls this
method issues. -/
def writePrefixCalls (s : PushingToViewsBlockOutputStream) : List SinkCall :=
  match s.output with
  | some o => [⟨o, .writePrefix⟩]
  | none => []

/-- `writeSuffix()`: `if (output) output->writeSuffix();`. -/
def writeSuffixCalls (s : PushingToViewsBlockOutputStream) : List SinkCall :=
  match s.output with
  | some o => [⟨o, .writeSuffix⟩]
  | none => []

/-- `flush()`: `if (output) output->flush();`. -/
def flushCalls (s : PushingToViewsBlockOutputStream) : List SinkCall :=
  match s.output with
  | some o => [⟨o, .flush⟩]
  | none => []

end PushingToViewsBlockOutputStream

/-! ## Materialized View Controller — refresh
(src/Storages/StorageMaterializedView.cpp, `StorageMaterializedView::refresh`)

The refresh builds `.tmp<innerName>` from the target's CREATE, fills it with
the saved SELECT, RENAME-EXCHANGEs it with the target, drops the shadowed
former target, and only then stamps `last_refresh_time`.  The member state the
function touches is `target_table_id` (re-fetched after the exchange) and
`last_refresh_time`.  Each external step (catalog lookup, query execution) can
throw; the environment records which ones do. -/

/-- The member state of `StorageMaterializedView` read and written by
`refresh`.  Timestamps are seconds; storage ids are opaque numbers. -/
structure MVState where
  target_table_id : Nat
  last_refresh_time : Nat
deriving Repr, DecidableEq

/-- Which external steps of `refresh` throw. -/
structure RefreshEnv where
  get_create_fails : Bool   -- getDatabase(...)->getCreateTableQuery(...) and AST rewrite
  create_tmp_fails : Bool   -- executeQuery of the rewritten CREATE (before `created = true`)
  insert_fails : Bool       -- INSERT INTO .tmp<innerName> <saved SELECT>
  rename_fails : Bool       -- RENAME EXCHANGE between .tmp<innerName> and the target
  drop_old_fails : Bool     -- final drop of the (now-shadowed) former target
deriving Repr, DecidableEq

/-- Catalog-visible actions `refresh` performs. -/
inductive RefreshAction where
  | createTmp
  | insertIntoTmp
  | renameExchange
  | dropShadowed   -- InterpreterDropQuery on the tmp name after a successful exchange
  | dropTmp        -- the cleanup drop in the catch block (`created && !replaced`)
deriving Repr, DecidableEq

/-- The step at which `refresh` threw, if any. -/
inductive RefreshError where
  | getCreate
  | createTmp
  | insert
  | rename
  | dropOld
deriving Repr, DecidableEq

/-- Outcome of one `refresh` call: the catalog actions performed in order, the
resulting member state, whether the `.tmp<innerName>` name still exists in the
catalog, and the propagated error if the call threw. -/
structure RefreshResult where
  actions : List RefreshAction
  state : MVState
  tmp_exists : Bool
  error : Option RefreshError
deriving Repr, DecidableEq

/-- `StorageMaterializedView::refresh` (lines 270–343).  `now` is the clock
reading used for `last_refresh_time`; `new_target_id` is the storage id the
catalog returns for the target name after a successful exchange (the id of
the freshly built table).  The `created`/`replaced` flags of the source become
the branch structure: an error after `created` and before `replaced` drops the
tmp table and rethrows; `last_refresh_time` is assigned only after the whole
try block succeeded. -/
def refresh (st : MVState) (env : RefreshEnv) (now new_target_id : Nat) : RefreshResult :=
  if env.get_create_fails then
    -- throw before the tmp CREATE was built: created = false, no cleanup
    ⟨[], st, false, some .getCreate⟩
  else if env.create_tmp_fails then
    -- executeQuery(create) threw: created still false, no cleanup
    ⟨[], st, false, some .createTmp⟩
  else
    -- created = true, the tmp table now exists
    if env.insert_fails then
      -- catch: created && !replaced → drop the tmp table, rethrow
      ⟨[.createTmp, .dropTmp], st, false, some .insert⟩
    else if env.rename_fails then
      ⟨[.createTmp, .insertIntoTmp, .dropTmp], st, false, some .rename⟩
    else
      -- exchange succeeded: target_table_id re-fetched, replaced = true
      if env.drop_old_fails then
        -- catch: created && replaced → no cleanup, rethrow;
        -- the tmp name still holds the shadowed former target
        ⟨[.createTmp, .insertIntoTmp, .renameExchange],
          ⟨new_target_id, st.last_refresh_time⟩, true, some .dropOld⟩
      else
        ⟨[.createTmp, .insertIntoTmp, .renameExchange, .dropShadowed],
          ⟨new_target_id, now⟩, false, none⟩

/-! ## External Loadable Registry (dbms/src/Interpreters/ExternalLoader.cpp)

Timestamps (`std::chrono::system_clock::time_point`) are seconds since epoch
as `Nat`; stored exceptions (`std::exception_ptr`) are abstract error values.
The two random draws (`std::uniform_int_distribution` over the backoff jitter
and over the lifetime window) are passed in as explicit arguments; the
distribution ranges become hypotheses of the theorems. -/

/-- A stored exception. -/
abbrev LoadError := String

/-- `ExternalLoadableLifetime`: reload interval bounds in seconds. -/
structure ExternalLoadableLifetime where
  min_sec : Nat
  max_sec : Nat
deriving Repr, DecidableEq

/-- The observable interface of an `IExternalLoadable` object, as used by the
loader: its name, lifetime, update capability/modification flags, and the
creation exception captured when its construction failed. -/
structure Loadable where
  name : String
  lifetime : ExternalLoadableLifetime
  supports_updates : Bool
  is_modified : Bool
  creation_exception : Option LoadError
deriving Repr, DecidableEq

/-- Provenance of a registry entry. -/
inductive ConfigurationSourceType where
  | Filesystem
  | DDL
deriving Repr, DecidableEq

/-- `ExternalLoader::LoadableInfo`: an entry of one of the two object maps.
`loadable` is null when the object never loaded successfully. -/
structure LoadableInfo where
  loadable : Option Loadable
  source_type : ConfigurationSourceType
  origin : String
  exception : Option LoadError
deriving Repr, DecidableEq

/-- `ExternalLoader::FailedLoadableInfo`: an entry of the failure set. -/
structure FailedLoadableInfo where
  loadable : Loadable
  next_attempt_time : Nat
  error_count : Nat
deriving Repr, DecidableEq

/-- `ExternalLoaderUpdateSettings`. -/
structure ExternalLoaderUpdateSettings where
  check_period_sec : Nat
  backoff_initial_sec : Nat
  backoff_max_sec : Nat
deriving Repr, DecidableEq

/-- An object map (`loadable_objects_from_filesystem` or
`loadable_objects_from_databases`), as an association list. -/
abbrev ObjectsMap := List (String × LoadableInfo)

/-- Lookup in an object map (`std::unordered_map::find`). -/
def ObjectsMap.findEntry (m : ObjectsMap) (name : String) : Option LoadableInfo :=
  (m.find? (fun p => p.1 == name)).map (·.2)

/-- The maps held by the loader. -/
structure ExternalLoaderState where
  loadable_objects_from_filesystem : ObjectsMap
  loadable_objects_from_databases : ObjectsMap
deriving Repr, DecidableEq

/-- How a registry accessor fails. -/
inductive GetError where
  | noSuchObject              -- BAD_ARGUMENTS "No such <object>: <name>"
  | storedException (e : LoadError)  -- rethrown entry exception
  | notLoaded                 -- LOGICAL_ERROR "<name> is not loaded"
deriving Repr, DecidableEq

/-- `ExternalLoader::getLoadableImpl(name, throw_on_error)` over the
filesystem map (lines 505–527).  A returned `none` loadable corresponds to a
null `LoadablePtr`. -/
def getLoadableImpl (m : ObjectsMap) (name : String) (throw_on_error : Bool) :
    Except GetError (Option Loadable) :=
  match m.findEntry name with
  | none =>
    if throw_on_error then .error .noSuchObject else .ok none
  | some info =>
    if info.loadable.isNone && throw_on_error then
      match info.exception with
      | some e => .error (.storedException e)
      | none => .error .notLoaded
    else .ok info.loadable

/-- `ExternalLoader::getLoadableFromDatabasesImpl(name, throw_on_error)`
(lines 530–551): identical logic over the databases map. -/
def getLoadableFromDatabasesImpl (st : ExternalLoaderState) (name : String)
    (throw_on_error : Bool) : Except GetError (Option Loadable) :=
  getLoadableImpl st.loadable_objects_from_databases name throw_on_error

/-- `getLoadable(name)` (line 555): `getLoadableImpl(name, true)`. -/
def getLoadable1 (st : ExternalLoaderState) (name : String) :
    Except GetError (Option Loadable) :=
  getLoadableImpl st.loadable_objects_from_filesystem name true

/-- `tryGetLoadable(name)` (line 570): `getLoadableImpl(name, false)`. -/
def tryGetLoadable1 (st : ExternalLoaderState) (name : String) :
    Except GetError (Option Loadable) :=
  getLoadableImpl st.loadable_objects_from_filesystem name false

/-- `getLoadable(database_name, name)` (lines 561–567).  Note: the source
passes `false` for `throw_on_error`. -/
def getLoadable2 (st : ExternalLoaderState) (database_name name : String) :
    Except GetError (Option Loadable) :=
  if database_name.isEmpty || name.isEmpty then .ok none
  else getLoadableFromDatabasesImpl st (database_name ++ "." ++ name) false

/-- `tryGetLoadable(database_name, name)` (lines 575–581). -/
def tryGetLoadable2 (st : ExternalLoaderState) (database_name name : String) :
    Except GetError (Option Loadable) :=
  if database_name.isEmpty || name.isEmpty then .ok none
  else getLoadableFromDatabasesImpl st (database_name ++ "." ++ name) false

/-- `ExternalLoader::getNextUpdateTime(loadable)` (lines 590–600).  `now` is
the current clock; `u` is the value drawn from
`uniform_int_distribution(lifetime.min_sec, lifetime.max_sec)` (hypotheses
constrain it to that interval where relevant).  When `max_sec < min_sec` the
distribution is skipped and `TimePoint(seconds(0))` — the epoch — is
returned. -/
def getNextUpdateTime (now u : Nat) (loadable : Loadable) : Nat :=
  if loadable.lifetime.max_sec < loadable.lifetime.min_sec then 0
  else now + u

/-- `ExternalLoader::checkLoadableObjectToUpdate(object)` (lines 206–230):
whether the update phase rebuilds this entry via `clone()`.  `update_times`
is the `update_times` map (total: absent names read as the default-constructed
time 0). -/
def checkLoadableObjectToUpdate (update_times : String → Nat) (now : Nat)
    (object : LoadableInfo) : Bool :=
  match object.loadable with
  | none => false
  | some current =>
    if current.lifetime.min_sec == 0 || current.lifetime.max_sec == 0 then false
    else if !current.supports_updates then false
    else
      let update_time := update_times current.name
      if now < update_time then false
      else if !current.is_modified then false
      else true

/-- The update-phase rebuild condition in the words of the specification:
"`supportUpdates() ∧ isModified() ∧ lifetime ≠ (0,0) ∧ now ≥
scheduled_update_time`".  Stated for comparison with
`checkLoadableObjectToUpdate`; it is intentionally the spec's formula, not the
source's. -/
def specUpdateCondition (update_times : String → Nat) (now : Nat)
    (current : Loadable) : Bool :=
  current.supports_updates && current.is_modified
    && !(current.lifetime.min_sec == 0 && current.lifetime.max_sec == 0)
    && decide (update_times current.name ≤ now)

/-- Outcome of one iteration of the failed-object retry loop. -/
inductive RetryOutcome where
  | skipped                                  -- now < next_attempt_time
  | failedAgain (info : FailedLoadableInfo)  -- clone failed again: rescheduled
  | succeeded (newLoadable : Loadable) (next_update_time : Nat)
deriving Repr, DecidableEq

/-- One iteration of the retry loop of `ExternalLoader::reloadAndUpdate`
(lines 154–195) for a single failed entry.  `cloned` is the object
`object_info.loadable->clone()` returns; `u` is the draw from
`uniform_int_distribution(0, exp2(error_count))`; `uUpd` is the lifetime draw
used by `getNextUpdateTime` on success. -/
def retryFailedObject (s : ExternalLoaderUpdateSettings) (now u uUpd : Nat)
    (info : FailedLoadableInfo) (cloned : Loadable) : RetryOutcome :=
  if now < info.next_attempt_time then .skipped
  else
    match cloned.creation_exception with
    | some _ =>
      let delay := min s.backoff_max_sec (s.backoff_initial_sec + u)
      .failedAgain ⟨info.loadable, now + delay, info.error_count + 1⟩
    | none => .succeeded cloned (getNextUpdateTime now uUpd cloned)

/-- The failure set `failed_loadable_objects`, as an association list. -/
abbrev FailedMap := List (String × FailedLoadableInfo)

/-- Lookup in the failure set. -/
def FailedMap.findEntry (m : FailedMap) (name : String) : Option FailedLoadableInfo :=
  (m.find? (fun p => p.1 == name)).map (·.2)

/-- Effect of a retry outcome on the failure set: a reschedule overwrites the
entry; success erases it (the delayed removal via
`recreated_failed_loadable_objects`, lines 186 and 198–199). -/
def applyRetryOutcome (failed : FailedMap) (name : String) :
    RetryOutcome → FailedMap
  | .skipped => failed
  | .failedAgain info => failed.map (fun p => if p.1 == name then (p.1, info) else p)
  | .succeeded _ _ => failed.filter (fun p => !(p.1 == name))

/-- Registration of a freshly failed object in `reloadFromConfigFile`
(lines 410–423): the entry starts with `error_count = 0` and its first retry
is scheduled `backoff_initial_sec` from now. -/
def registerFailedObject (s : ExternalLoaderUpdateSettings) (now : Nat)
    (obj : Loadable) : FailedLoadableInfo :=
  ⟨obj, now + s.backoff_initial_sec, 0⟩

/-! ## Aggregating In-Memory Table (src/Storages/StorageAggregatingMemory.cpp)

The aggregator internals (`Aggregator::executeOnBlock`,
`prepareVariantsToMerge`) are external collaborators; what matters for the
lifecycle claims is the shared `many_data->variants` slot: created at
construction, appended to by every write, and streamed out by every read.  A
fed block is abstracted to the tag it contributes to the variants; the
`before_aggregation` expression DAG is an external transform applied to it. -/

/-- The storage's shared aggregation state: the blocks executed on the shared
`AggregatedDataVariants` since construction. -/
structure StorageAggregatingMemory where
  variants : List Nat
deriving Repr, DecidableEq

namespace StorageAggregatingMemory

/-- `AggregatingOutputStream::write(block)`: applies `before_aggregation` and
calls `executeOnBlock` against the shared variants. -/
def write (before_aggregation : Nat → Nat) (st : StorageAggregatingMemory)
    (b : Nat) : StorageAggregatingMemory :=
  ⟨st.variants ++ [before_aggregation b]⟩

/-- `StorageAggregatingMemory::read` (lines 252–280): merges the current
variants into the output pipe (the post-aggregation expression stages are
external transforms of the resulting stream and do not change which
aggregated data is observed). -/
def read (st : StorageAggregatingMemory) : List Nat :=
  st.variants

/-- `StorageAggregatingMemory::drop` (lines 288–291).  The body is empty:
`// TODO drop aggregator state`. -/
def drop (st : StorageAggregatingMemory) : StorageAggregatingMemory :=
  st

/-- `StorageAggregatingMemory::truncate` (lines 293–296).  The body is empty:
`// TODO clear aggregator state`. -/
def truncate (st : StorageAggregatingMemory) : StorageAggregatingMemory :=
  st

end StorageAggregatingMemory

/-! ## Dictionary Structure Schema (dbms/src/Dictionaries/DictionaryStructure.cpp)

The Poco configuration tree is embedded by its relevant projections: an
element (`id`, `range_min`, `range_max`, or an `attribute…` child of the
structure node) is the ordered list of its child key/value pairs; the
structure node itself records whether `id`/`key` exist, the `key` children,
the range elements, and the full child list seen by `getAttributes`.
`DataTypeFactory::instance().get` is an external collaborator and is embedded
as the identity on type names; null-value text deserialization is external and
keeps the raw string. -/

/-- Errors thrown by schema validation.  `notFound` is Poco's
`NotFoundException` for reading a missing property without a default. -/
inductive DictError where
  | badArguments (msg : String)
  | unknownType (t : String)
  | notFound (key : String)
deriving Repr, DecidableEq

/-- A configuration element: its child keys with their string values, in
document order. -/
abbrev AttributeConfig := List (String × String)

/-- First value stored under a key, if any. -/
def cfgGet (e : AttributeConfig) (k : String) : Option String :=
  (e.find? (fun p => p.1 == k)).map (·.2)

/-- `config.getString(path)` without default: throws when missing. -/
def cfgGetString (e : AttributeConfig) (k : String) : Except DictError String :=
  match cfgGet e k with
  | some v => .ok v
  | none => .error (.notFound k)

/-- `config.getString(path, default)`. -/
def cfgGetStringD (e : AttributeConfig) (k d : String) : String :=
  (cfgGet e k).getD d

/-- Poco boolean parsing, for the literals used in dictionary configs. -/
def parseBoolValue (v : String) : Bool :=
  v == "true" || v == "1"

/-- `config.getBool(path, default)`. -/
def cfgGetBoolD (e : AttributeConfig) (k : String) (d : Bool) : Bool :=
  match cfgGet e k with
  | some v => parseBoolValue v
  | none => d

/-- `startsWith(s, prefix)` from Common/StringUtils, character-wise (kernel-
computable form of the prefix test). -/
def strStartsWith (p s : String) : Bool :=
  p.data.isPrefixOf s.data

/-- `AttributeUnderlyingType`. -/
inductive AttributeUnderlyingType where
  | UInt8 | UInt16 | UInt32 | UInt64 | UInt128
  | Int8 | Int16 | Int32 | Int64
  | Float32 | Float64
  | Decimal32 | Decimal64 | Decimal128
  | String
deriving Repr, DecidableEq

/-- `getAttributeUnderlyingType(type)` (lines 92–127): the static name→kind
table, then the `Decimal` prefix rule, then `UNKNOWN_TYPE`. -/
def getAttributeUnderlyingType (type : String) : Except DictError AttributeUnderlyingType :=
  if type == "UInt8" then .ok .UInt8
  else if type == "UInt16" then .ok .UInt16
  else if type == "UInt32" then .ok .UInt32
  else if type == "UInt64" then .ok .UInt64
  else if type == "UUID" then .ok .UInt128
  else if type == "Int8" then .ok .Int8
  else if type == "Int16" then .ok .Int16
  else if type == "Int32" then .ok .Int32
  else if type == "Int64" then .ok .Int64
  else if type == "Float32" then .ok .Float32
  else if type == "Float64" then .ok .Float64
  else if type == "String" then .ok .String
  else if type == "Date" then .ok .UInt16
  else if type == "DateTime" then .ok .UInt32
  else if strStartsWith "Decimal" type then
    let rest := type.data.drop 7
    if "32".data.isPrefixOf rest then .ok .Decimal32
    else if "64".data.isPrefixOf rest then .ok .Decimal64
    else if "128".data.isPrefixOf rest then .ok .Decimal128
    else .error (.unknownType type)
  else .error (.unknownType type)

/-- The keys `checkAttributeKeys` accepts inside an attribute section. -/
def validAttributeKeys : List String :=
  ["name", "type", "expression", "null_value", "hierarchical", "injective", "is_object_id"]

/-- `checkAttributeKeys(keys)` (lines 310–320). -/
def checkAttributeKeys (keys : List String) : Except DictError Unit :=
  match keys.find? (fun k => !(validAttributeKeys.contains k)) with
  | some k => .error (.badArguments ("Unknown key " ++ k ++ " inside attribute section"))
  | none => .ok ()

/-- `DictionaryAttribute`.  `type` is the `DataTypePtr`, embedded as the type
name; `null_value` keeps the raw text (its deserialization is external) and is
`none` when null values are not read. -/
structure DictionaryAttribute where
  name : String
  underlying_type : AttributeUnderlyingType
  type : String
  expression : String
  null_value : Option String
  hierarchical : Bool
  injective : Bool
  is_object_id : Bool
deriving Repr, DecidableEq

/-- `DictionarySpecialAttribute` (lines 170–175). -/
structure DictionarySpecialAttribute where
  name : String
  expression : String
deriving Repr, DecidableEq

/-- The `DictionarySpecialAttribute` constructor: reads `name` and
`expression` with empty defaults and rejects an empty name next to a non-empty
expression. -/
def makeDictionarySpecialAttribute (e : AttributeConfig) :
    Except DictError DictionarySpecialAttribute :=
  let name := cfgGetStringD e "name" ""
  let expression := cfgGetStringD e "expression" ""
  if name.isEmpty && !expression.isEmpty then
    .error (.badArguments "Element name is empty")
  else .ok ⟨name, expression⟩

/-- `DictionaryTypedSpecialAttribute` with the type embedded as its name. -/
structure DictionaryTypedSpecialAttribute where
  name : String
  expression : String
  type : String
deriving Repr, DecidableEq

/-- `makeDictionaryTypedSpecialAttribute` (lines 38–49). -/
def makeDictionaryTypedSpecialAttribute (e : AttributeConfig) (default_type : String) :
    Except DictError DictionaryTypedSpecialAttribute :=
  let name := cfgGetStringD e "name" ""
  let expression := cfgGetStringD e "expression" ""
  if name.isEmpty && !expression.isEmpty then
    .error (.badArguments "Element name is empty")
  else .ok ⟨name, expression, cfgGetStringD e "type" default_type⟩

/-- Modelled from the external `IDataType::isValueRepresentedByInteger` API:
the type names whose values are represented by integers (integers, `Date`,
`DateTime`, `Enum`, `UUID`, decimals), as required by the range check. -/
def isValueRepresentedByInteger (t : String) : Bool :=
  t ∈ ["UInt8", "UInt16", "UInt32", "UInt64", "UUID",
       "Int8", "Int16", "Int32", "Int64",
       "Date", "DateTime", "Enum8", "Enum16",
       "Decimal32", "Decimal64", "Decimal128"]

/-- The per-element body of the `getAttributes` loop (lines 346–384): check
the section's keys, read `name` and `type` (throwing when missing), resolve
the attribute type, read `expression`, read `null_value` when allowed, read
the boolean flags, and reject an empty name. -/
def parseAttributeElem (an : Bool) (e : AttributeConfig) :
    Except DictError DictionaryAttribute :=
  match checkAttributeKeys (e.map Prod.fst) with
  | .error er => .error er
  | .ok _ =>
    match cfgGet e "name" with
    | none => .error (.notFound "name")
    | some name =>
      match cfgGet e "type" with
      | none => .error (.notFound "type")
      | some type_string =>
        -- DataTypeFactory::instance().get(type_string) is external;
        -- the DataTypePtr is embedded as the type name itself
        match getAttributeUnderlyingType type_string with
        | .error er => .error er
        | .ok underlying_type =>
          let expression := cfgGetStringD e "expression" ""
          match (if an then (cfgGetString e "null_value").map some
                 else .ok none) with
          | .error er => .error er
          | .ok null_value =>
            let hierarchical := cfgGetBoolD e "hierarchical" false
            let injective := cfgGetBoolD e "injective" false
            let is_object_id := cfgGetBoolD e "is_object_id" false
            if name.isEmpty then
              .error (.badArguments "Properties name and type of an attribute cannot be empty")
            else
              .ok ⟨name, underlying_type, type_string, expression,
                   null_value, hierarchical, injective, is_object_id⟩

/-- The loop of `DictionaryStructure::getAttributes` (lines 323–399).
Arguments: `ha` = `hierarchy_allowed`, `an` = `allow_null_values`; state:
`hh` = `has_hierarchy`, `he` = the member `has_expressions` accumulated so
far; `elems` = the children of the scanned node in document order.  Returns
the parsed attributes and the updated `has_expressions`. -/
def getAttributesGo (ha an : Bool) :
    Bool → Bool → List (String × AttributeConfig) →
      Except DictError (List DictionaryAttribute × Bool)
  | _, he, [] => .ok ([], he)
  | hh, he, (ename, e) :: rest =>
    if strStartsWith "attribute" ename then
      match parseAttributeElem an e with
      | .error er => .error er
      | .ok attr =>
        if hh && !ha then
          .error (.badArguments "Hierarchy not allowed")
        else if hh && attr.hierarchical then
          .error (.badArguments "Only one hierarchical attribute supported")
        else
          match getAttributesGo ha an (hh || attr.hierarchical)
              (he || !attr.expression.isEmpty) rest with
          | .error er => .error er
          | .ok (attrs, he2) => .ok (attr :: attrs, he2)
    else getAttributesGo ha an hh he rest

/-- The projections of the `structure` configuration node read by the
`DictionaryStructure` constructor. -/
structure DictionaryConfig where
  idElem : Option AttributeConfig                        -- config.has(".id") and its children
  keyElems : Option (List (String × AttributeConfig))    -- config.has(".key") and its children
  rangeMin : Option AttributeConfig
  rangeMax : Option AttributeConfig
  elems : List (String × AttributeConfig)                -- children scanned by getAttributes
deriving Repr, DecidableEq

/-- `DictionaryStructure`. -/
structure DictionaryStructure where
  id : Option DictionarySpecialAttribute
  key : Option (List DictionaryAttribute)
  range_min : Option DictionaryTypedSpecialAttribute
  range_max : Option DictionaryTypedSpecialAttribute
  attributes : List DictionaryAttribute
  has_expressions : Bool
deriving Repr, DecidableEq

/-- The shared tail of the constructor (lines 239–242): parse the main
attribute list (`hierarchy_allowed = true`, `allow_null_values = true`) and
reject an empty result. -/
def makeDictionaryStructureTail (id : Option DictionarySpecialAttribute)
    (key : Option (List DictionaryAttribute))
    (range_min range_max : Option DictionaryTypedSpecialAttribute)
    (he : Bool) (elems : List (String × AttributeConfig)) :
    Except DictError DictionaryStructure :=
  match getAttributesGo true true false he elems with
  | .error er => .error er
  | .ok (attributes, he') =>
    if attributes.isEmpty then
      .error (.badArguments "Dictionary has no attributes defined")
    else .ok ⟨id, key, range_min, range_max, attributes, he'⟩

/-- The `DictionaryStructure` constructor (lines 178–242). -/
def makeDictionaryStructure (cfg : DictionaryConfig) : Except DictError DictionaryStructure :=
  if cfg.keyElems.isSome && cfg.idElem.isSome then
    .error (.badArguments "Only one of id and key should be specified")
  else
    match cfg.idElem with
    | some idElem =>
      match makeDictionarySpecialAttribute idElem with
      | .error er => .error er
      | .ok idAttr =>
        -- the `if (id)` block
        if idAttr.name.isEmpty then .error (.badArguments "id cannot be empty")
        else
          match (match cfg.rangeMin with
                 | some e => (makeDictionaryTypedSpecialAttribute e "Date").map some
                 | none => .ok none) with
          | .error er => .error er
          | .ok range_min =>
            match (match cfg.rangeMax with
                   | some e => (makeDictionaryTypedSpecialAttribute e "Date").map some
                   | none => .ok none) with
            | .error er => .error er
            | .ok range_max =>
              if range_min.isSome != range_max.isSome then
                .error (.badArguments
                  "Dictionary structure should have both range_min and range_max either specified or not")
              else if (match range_min, range_max with
                       | some rmin, some rmax => rmin.type != rmax.type
                       | _, _ => false) then
                .error (.badArguments
                  "Dictionary structure range_min and range_max should have same type")
              else if (match range_min with
                       | some rmin => !isValueRepresentedByInteger rmin.type
                       | none => false) then
                .error (.badArguments
                  "Dictionary structure type of range_min and range_max should be an integer")
              else
                makeDictionaryStructureTail (some idAttr) none range_min range_max
                  (!idAttr.expression.isEmpty
                    || (match range_min with
                        | some r => !r.expression.isEmpty
                        | none => false)
                    || (match range_max with
                        | some r => !r.expression.isEmpty
                        | none => false)) cfg.elems
    | none =>
      match cfg.keyElems with
      | some keyElems =>
        match getAttributesGo false false false false keyElems with
        | .error er => .error er
        | .ok (keyAttrs, heKey) =>
          if keyAttrs.isEmpty then .error (.badArguments "Empty key supplied")
          else makeDictionaryStructureTail none (some keyAttrs) none none heKey cfg.elems
      | none =>
        .error (.badArguments "Dictionary structure should specify either id or key")

/-- Whether a schema-validation result is an error (a thrown exception). -/
def dictResultIsError : Except DictError DictionaryStructure → Bool
  | .error _ => true
  | .ok _ => false

/-- The per-element rejection conditions named by the specification for an
attribute section: an unknown key, an empty attribute name, or an unknown
attribute type. -/
def badAttrElem (e : AttributeConfig) : Bool :=
  (e.map Prod.fst).any (fun k => !(validAttributeKeys.contains k))
    || (match cfgGet e "name" with
        | none => false
        | some n => n.isEmpty)
    || (match cfgGet e "type" with
        | none => false
        | some t => match getAttributeUnderlyingType t with
                    | .ok _ => false
                    | .error _ => true)

/-- Whether some attribute section among the given children is rejected. -/
def hasBadAttrElem (elems : List (String × AttributeConfig)) : Bool :=
  elems.any (fun p => strStartsWith "attribute" p.1 && badAttrElem p.2)

/-- Number of attribute sections declared hierarchical. -/
def countHier (elems : List (String × AttributeConfig)) : Nat :=
  (elems.filter
    (fun p => strStartsWith "attribute" p.1 && cfgGetBoolD p.2 "hierarchical" false)).length

/-- Resolved type of a `range_min`/`range_max` element (default `Date`). -/
def resolvedRangeType (e : AttributeConfig) : String :=
  cfgGetStringD e "type" "Date"

/-- The rejection conditions of the claim, over a configuration, with the
`range_min`/`range_max` conditions scoped to id-form configurations: both `id`
and `key`, neither of them, an empty main attribute list, a bad attribute
section (unknown key, empty name, unknown type) in the main list or in the
key, more than one hierarchical attribute, or (id form) `range_min`/`range_max`
present unequally or with different resolved types. -/
def specBadDictConfig (cfg : DictionaryConfig) : Bool :=
  (cfg.idElem.isSome && cfg.keyElems.isSome)
    || (!cfg.idElem.isSome && !cfg.keyElems.isSome)
    || (cfg.elems.filter (fun p => strStartsWith "attribute" p.1)).isEmpty
    || hasBadAttrElem cfg.elems
    || hasBadAttrElem (cfg.keyElems.getD [])
    || decide (2 ≤ countHier cfg.elems)
    || decide (2 ≤ countHier (cfg.keyElems.getD []))
    || (cfg.idElem.isSome
        && ((cfg.rangeMin.isSome != cfg.rangeMax.isSome)
            || (match cfg.rangeMin, cfg.rangeMax with
                | some rmin, some rmax =>
                  resolvedRangeType rmin != resolvedRangeType rmax
                | _, _ => false)))

/-- A key-form configuration carrying only `range_min`: one key attribute, a
`range_min` element, no `range_max`, and one ordinary attribute. -/
def keyFormRangeConfig : DictionaryConfig where
  idElem := none
  keyElems := some [("attribute", [("name", "k"), ("type", "String")])]
  rangeMin := some [("name", "rmin")]
  rangeMax := none
  elems := [("attribute", [("name", "a"), ("type", "UInt64"), ("null_value", "0")])]

/-! ### Key accessors (`validateKeyTypes`, `getKeySize`)

Both dereference the `std::optional` member `key` unconditionally; the
dereference of an empty optional is undefined behaviour, embedded as a
distinguished error value. -/

/-- How a key accessor fails. -/
inductive KeyAccessError where
  | undefinedBehaviour   -- `*key` / `key->` on an empty optional
  | sizeMismatch         -- TYPE_MISMATCH "Key structure does not match"
  | typeMismatch (i : Nat)  -- TYPE_MISMATCH "Key type at position i does not match"
deriving Repr, DecidableEq

/-- The unconditional dereference of the optional `key` member. -/
def derefKey : Option (List DictionaryAttribute) →
    Except KeyAccessError (List DictionaryAttribute)
  | none => .error .undefinedBehaviour
  | some k => .ok k

/-- The comparison loop of `validateKeyTypes` (lines 250–259), comparing type
names position by position. -/
def validateKeyTypesLoop : Nat → List DictionaryAttribute → List String →
    Except KeyAccessError Unit
  | _, [], _ => .ok ()
  | _, _ :: _, [] => .ok ()
  | i, a :: as, t :: ts =>
    if a.type != t then .error (.typeMismatch i)
    else validateKeyTypesLoop (i + 1) as ts

/-- `DictionaryStructure::validateKeyTypes(key_types)` (lines 245–260).
`key_types` are the actual types' names. -/
def validateKeyTypes (s : DictionaryStructure) (key_types : List String) :
    Except KeyAccessError Unit :=
  match derefKey s.key with
  | .error e => .error e
  | .ok key =>
    if key_types.length != key.length then .error .sizeMismatch
    else validateKeyTypesLoop 0 key key_types

/-- Modelled from the external `IDataType::getSizeOfValueInMemory` API: fixed
value widths by type name (variable-length types have no such width; the
source leaves `getKeySize` undefined for them, which the claims do not
exercise). -/
def getSizeOfValueInMemory (t : String) : Nat :=
  if t == "UInt8" || t == "Int8" || t == "Enum8" then 1
  else if t == "UInt16" || t == "Int16" || t == "Date" || t == "Enum16" then 2
  else if t == "UInt32" || t == "Int32" || t == "Float32" || t == "DateTime"
      || t == "Decimal32" then 4
  else if t == "UInt64" || t == "Int64" || t == "Float64" || t == "Decimal64" then 8
  else 16

/-- `DictionaryStructure::getKeySize()` (lines 301–307): `std::accumulate`
over `*key`. -/
def getKeySize (s : DictionaryStructure) : Except KeyAccessError Nat :=
  match derefKey s.key with
  | .error e => .error e
  | .ok key => .ok (key.foldl (fun acc a => acc + getSizeOfValueInMemory a.type) 0)

end ClickHouse

namespace ClickHouse

/-! ## Lemmas about the Block Pipe Copier -/

theorem projFrames_append (a b : List OutEvent) :
    projFrames (a ++ b) = projFrames a ++ projFrames b := by
  induction a with
  | nil => rfl
  | cons x r ih => cases x <;> simp [projFrames, ih]

theorem projFrames_profile (p : Option ProfileInfo) : projFrames (profileEvents p) = [] := by
  cases p with
  | none => rfl
  | some q =>
    by_cases h : q.has_applied_limit = true <;>
      simp [profileEvents, h, projFrames]

theorem scanFE_append (a b : List FrameEvent) :
    ∀ s, scanFE s (a ++ b) = (scanFE s a).bind (fun s' => scanFE s' b) := by
  induction a with
  | nil => intro s; cases s <;> rfl
  | cons x r ih =>
    intro s
    match s, x with
    | none, .pfx => simpa [scanFE] using ih (some 0)
    | none, .write => simp [scanFE]
    | none, .sfx => simp [scanFE]
    | some w, .pfx => simp [scanFE]
    | some w, .write => simpa [scanFE] using ih (some (w + 1))
    | some w, .sfx =>
      by_cases h : 1 ≤ w <;> simp [scanFE, h]
      exact ih none

theorem scanFE_counts (l : List FrameEvent) :
    ∀ s s', scanFE s l = some s' →
      countPfx l + opensFE s = countSfx l + opensFE s' := by
  induction l with
  | nil =>
    intro s s' h
    simp [scanFE] at h
    subst h; rfl
  | cons x r ih =>
    intro s s' h
    match s, x with
    | none, .pfx =>
      have := ih (some 0) s' (by simpa [scanFE] using h)
      simp only [countPfx, countSfx, opensFE] at *
      omega
    | none, .write => simp [scanFE] at h
    | none, .sfx => simp [scanFE] at h
    | some w, .pfx => simp [scanFE] at h
    | some w, .write =>
      have := ih (some (w + 1)) s' (by simpa [scanFE] using h)
      simp only [countPfx, countSfx, opensFE] at *
      omega
    | some w, .sfx =>
      by_cases hw : 1 ≤ w
      · have := ih none s' (by simpa [scanFE, hw] using h)
        simp only [countPfx, countSfx, opensFE] at *
        omega
      · simp [scanFE, hw] at h

theorem copyDataGo_nodata (cancel : CancelFlag) :
    ∀ (bs : List Block) (t : Nat) (o nd : Bool),
      (copyDataGo cancel t o nd bs).2.2.1 = (nd && bs.isEmpty) := by
  intro bs
  induction bs with
  | nil => intro t o nd; simp [copyDataGo]
  | cons b r ih =>
    intro t o nd
    by_cases h : isAtomicSet cancel t = true <;>
      simp [copyDataGo, h, ih]

theorem copyDataGo_nodata_irrel (cancel : CancelFlag) (t : Nat) (o : Bool)
    (nd nd' : Bool) (b : Block) (rest : List Block) :
    copyDataGo cancel t o nd (b :: rest) = copyDataGo cancel t o nd' (b :: rest) := rfl

theorem copyDataGo_shape (cancel : CancelFlag) (hc : ∀ t, isAtomicSet cancel t = false) :
    ∀ (bs : List Block) (t : Nat) (o : Bool) (s : Option Nat),
      wfFrom o bs = true → stateOk o s = true →
      ∃ s', scanFE s (projFrames (copyDataGo cancel t o false bs).1) = some s' ∧
            stateOk (copyDataGo cancel t o false bs).2.1 s' = true := by
  intro bs
  induction bs with
  | nil =>
    intro t o s _ hst
    exact ⟨s, by cases s <;> simp [copyDataGo, projFrames, scanFE],
      by simpa [copyDataGo] using hst⟩
  | cons b rest ih =>
    intro t o s hwf hst
    cases o with
    | false =>
      have hwf2 : wfFrom (!b.info.is_end_frame) rest = true := by
        simp [wfFrom] at hwf; exact hwf
      have hs : s = none := by
        cases s with
        | none => rfl
        | some w => simp [stateOk] at hst
      subst hs
      by_cases he : b.info.is_end_frame = true
      · -- prefix, write, suffix; frame closed on exit from this block
        obtain ⟨s', h1, h2⟩ := ih (t + 1) false none (by simpa [he] using hwf2) rfl
        refine ⟨s', ?_, by simpa [copyDataGo, hc, he] using h2⟩
        simp [copyDataGo, hc, he, projFrames, projFrames_append, scanFE, scanFE_append]
        simpa using h1
      · -- prefix, write; frame stays open with one write
        simp only [Bool.not_eq_true] at he
        obtain ⟨s', h1, h2⟩ := ih (t + 1) true (some 1) (by simpa [he] using hwf2) rfl
        refine ⟨s', ?_, by simpa [copyDataGo, hc, he] using h2⟩
        simp [copyDataGo, hc, he, projFrames, projFrames_append, scanFE, scanFE_append]
        simpa using h1
    | true =>
      have hstart : b.info.is_start_frame = false := by
        simp [wfFrom] at hwf; exact hwf.1
      have hwf2 : wfFrom (!b.info.is_end_frame) rest = true := by
        simp [wfFrom] at hwf; exact hwf.2
      obtain ⟨w, hs, hw⟩ : ∃ w, s = some w ∧ 1 ≤ w := by
        cases s with
        | none => simp [stateOk] at hst
        | some w => exact ⟨w, rfl, by simpa [stateOk] using hst⟩
      subst hs
      by_cases he : b.info.is_end_frame = true
      · -- write, suffix; frame closed on exit
        obtain ⟨s', h1, h2⟩ := ih (t + 1) false none (by simpa [he] using hwf2) rfl
        refine ⟨s', ?_, by simpa [copyDataGo, hc, he, hstart] using h2⟩
        simp [copyDataGo, hc, he, hstart, projFrames, projFrames_append, scanFE,
          scanFE_append, Nat.le_add_right_of_le hw]
        simpa using h1
      · -- write only; frame stays open with one more write
        simp only [Bool.not_eq_true] at he
        obtain ⟨s', h1, h2⟩ := ih (t + 1) true (some (w + 1))
          (by simpa [he] using hwf2) (by simp [stateOk])
        refine ⟨s', ?_, by simpa [copyDataGo, hc, he, hstart] using h2⟩
        simp [copyDataGo, hc, he, hstart, projFrames, projFrames_append, scanFE, scanFE_append]
        simpa using h1

theorem copyDataGo_cancel_congr (c1 c2 : CancelFlag)
    (h : ∀ t, isAtomicSet c1 t = isAtomicSet c2 t) :
    ∀ (bs : List Block) (t : Nat) (o nd : Bool),
      copyDataGo c1 t o nd bs = copyDataGo c2 t o nd bs := by
  intro bs
  induction bs with
  | nil => intro t o nd; rfl
  | cons b r ih =>
    intro t o nd
    simp only [copyDataGo, h, ih]

/-- **C1** (corrected).  The claim asserts that, absent cancellation, the sink
receives `writePrefix` and `writeSuffix` an equal number of times *for every*
input block sequence.  This fails: when a block carries `is_start_frame` while
a frame is already open, `copyData` emits a second `writePrefix` without
closing the first frame.  On the input
`[{start=false,end=false}, {start=true,end=false}]` with no cancel flag, the
destination receives two `writePrefix` calls but only one `writeSuffix`. -/
theorem copyData_equal_counts_counterexample :
    countPfx (projFrames (copyData
        [⟨⟨false, false⟩, 1⟩, ⟨⟨true, false⟩, 2⟩] none none)) = 2 ∧
    countSfx (projFrames (copyData
        [⟨⟨false, false⟩, 1⟩, ⟨⟨true, false⟩, 2⟩] none none)) = 1 := by
  decide

/-- **C1** (amended).  For every input sequence in which a block with
`is_start_frame` arrives only while no frame is open, and with no cancellation
observed, the destination sink receives `writePrefix` and `writeSuffix` an
equal number of times, each `writeSuffix` preceded by a matching `writePrefix`
with at least one intervening `write`; if the input is empty, exactly one
`writePrefix` followed by one `writeSuffix` with zero writes is emitted. -/
theorem copyData_frame_wellformedness (input : List Block) (prof : Option ProfileInfo)
    (cancel : CancelFlag) (hc : ∀ t, isAtomicSet cancel t = false)
    (hwf : wfFrom false input = true) :
    countPfx (projFrames (copyData input prof cancel))
      = countSfx (projFrames (copyData input prof cancel)) ∧
    (input = [] → projFrames (copyData input prof cancel) = [.pfx, .sfx]) ∧
    (input ≠ [] → framesWellFormed (projFrames (copyData input prof cancel)) = true) := by
  cases input with
  | nil =>
    have : projFrames (copyData [] prof cancel) = [.pfx, .sfx] := by
      simp [copyData, copyDataGo, hc, projFrames, projFrames_append, projFrames_profile]
    rw [this]
    exact ⟨rfl, fun _ => rfl, fun h => absurd rfl h⟩
  | cons b rest =>
    obtain ⟨s', h1, h2⟩ := copyDataGo_shape cancel hc (b :: rest) 0 false none hwf rfl
    have hnd : (copyDataGo cancel 0 false true (b :: rest)).2.2.1 = false := by
      rw [copyDataGo_nodata]; simp
    rw [copyDataGo_nodata_irrel cancel 0 false true false b rest] at hnd
    have hfinal : projFrames (copyData (b :: rest) prof cancel)
        = projFrames (copyDataGo cancel 0 false false (b :: rest)).1
          ++ (if (copyDataGo cancel 0 false false (b :: rest)).2.1 then
                [FrameEvent.sfx] else []) := by
      simp only [copyData, copyDataGo_nodata_irrel cancel 0 false true false b rest, hnd,
        hc, if_false, Bool.false_eq_true, projFrames_append, projFrames_profile,
        List.append_nil]
      cases (copyDataGo cancel 0 false false (b :: rest)).2.1 <;>
        simp [projFrames, projFrames_append]
    have hwfres : framesWellFormed (projFrames (copyData (b :: rest) prof cancel)) = true := by
      rw [hfinal, framesWellFormed, scanFE_append, h1]
      cases ho : (copyDataGo cancel 0 false false (b :: rest)).2.1 with
      | false =>
        have : s' = none := by rw [ho] at h2; cases s' <;> simp [stateOk] at h2 ⊢
        subst this; simp [scanFE]
      | true =>
        obtain ⟨w, hs, hw⟩ : ∃ w, s' = some w ∧ 1 ≤ w := by
          rw [ho] at h2
          cases s' with
          | none => simp [stateOk] at h2
          | some w => exact ⟨w, rfl, by simpa [stateOk] using h2⟩
        subst hs; simp [scanFE, hw]
    refine ⟨?_, fun h => by simp at h, fun _ => hwfres⟩
    have := scanFE_counts (projFrames (copyData (b :: rest) prof cancel)) none none
      (by simpa [framesWellFormed] using hwfres)
    simpa [opensFE] using this

/-- Witness for `copyData_frame_wellformedness` at the concrete two-block
single-frame input of the spec's end-to-end scenario 2. -/
theorem copyData_frame_wellformedness_witness :
    framesWellFormed (projFrames (copyData
        [⟨⟨true, false⟩, 1⟩, ⟨⟨false, true⟩, 2⟩] none none)) = true :=
  (copyData_frame_wellformedness [⟨⟨true, false⟩, 1⟩, ⟨⟨false, true⟩, 2⟩] none none
    (fun _ => rfl) (by decide)).2.2 (by decide)

/-- **C9** (confirmed).  Running the Block Pipe Copier with a cancel flag that
is never set produces exactly the same sequence of destination-sink calls as
running it with no cancel flag (a null pointer): `isAtomicSet` evaluates to
`false` at every check in both cases, so the two runs are equal. -/
theorem copyData_neverset_cancel_eq_null (input : List Block) (prof : Option ProfileInfo)
    (f : Nat → Bool) (hf : ∀ t, f t = false) :
    copyData input prof (some f) = copyData input prof none := by
  have hiso : ∀ t, isAtomicSet (some f) t = isAtomicSet none t := by
    intro t; simp [isAtomicSet, hf]
  simp only [copyData, copyDataGo_cancel_congr (some f) none hiso, hiso]

/-- Witness for `copyData_neverset_cancel_eq_null` at a concrete one-block
input with the constantly-false flag. -/
theorem copyData_neverset_cancel_eq_null_witness :
    copyData [⟨⟨true, true⟩, 5⟩] none (some (fun _ => false))
      = copyData [⟨⟨true, true⟩, 5⟩] none none :=
  copyData_neverset_cancel_eq_null [⟨⟨true, true⟩, 5⟩] none (fun _ => false)
    (fun _ => rfl)

/-! ## Theorems about the Dataflow Fan-out Writer -/

/-- **C2** (corrected).  The claim asserts that `writePrefix`, `writeSuffix`
and `flush` are broadcast to the primary sink *and* to each dependent view's
sub-writer.  This fails: the header forwards each of the three calls only to
`output`.  Concretely, a writer holding primary sink 0 and one dependent view
whose sub-writer is sink 1 issues each call only on sink 0; sink 1 receives
nothing. -/
theorem pushing_broadcast_counterexample :
    (PushingToViewsBlockOutputStream.writePrefixCalls ⟨some 0, [(100, 1)]⟩
        = [⟨0, .writePrefix⟩]) ∧
    (PushingToViewsBlockOutputStream.writeSuffixCalls ⟨some 0, [(100, 1)]⟩
        = [⟨0, .writeSuffix⟩]) ∧
    (PushingToViewsBlockOutputStream.flushCalls ⟨some 0, [(100, 1)]⟩
        = [⟨0, .flush⟩]) ∧
    (∀ c ∈ PushingToViewsBlockOutputStream.writePrefixCalls ⟨some 0, [(100, 1)]⟩
        ++ PushingToViewsBlockOutputStream.writeSuffixCalls ⟨some 0, [(100, 1)]⟩
        ++ PushingToViewsBlockOutputStream.flushCalls ⟨some 0, [(100, 1)]⟩,
      c.target ≠ 1) := by
  refine ⟨rfl, rfl, rfl, ?_⟩
  decide

/-- **C2** (amended).  Each call to `writePrefix`, `writeSuffix` or `flush` on
the Dataflow Fan-out Writer is forwarded only to the primary sink: exactly one
call to `output` when it is non-null and no call at all when it is null; the
dependent views' sub-writers receive none of these calls. -/
theorem pushing_broadcast_primary_only (s : PushingToViewsBlockOutputStream) :
    (∀ c ∈ s.writePrefixCalls ++ s.writeSuffixCalls ++ s.flushCalls,
        s.output = some c.target) ∧
    (∀ o, s.output = some o →
        s.writePrefixCalls = [⟨o, .writePrefix⟩] ∧
        s.writeSuffixCalls = [⟨o, .writeSuffix⟩] ∧
        s.flushCalls = [⟨o, .flush⟩]) ∧
    (s.output = none →
        s.writePrefixCalls = [] ∧ s.writeSuffixCalls = [] ∧ s.flushCalls = []) := by
  obtain ⟨out, views⟩ := s
  cases out with
  | none =>
    refine ⟨?_, ?_, ?_⟩ <;>
      simp [PushingToViewsBlockOutputStream.writePrefixCalls,
        PushingToViewsBlockOutputStream.writeSuffixCalls,
        PushingToViewsBlockOutputStream.flushCalls]
  | some o =>
    refine ⟨?_, ?_, ?_⟩ <;>
      simp [PushingToViewsBlockOutputStream.writePrefixCalls,
        PushingToViewsBlockOutputStream.writeSuffixCalls,
        PushingToViewsBlockOutputStream.flushCalls]

/-- Witness for `pushing_broadcast_primary_only` at a concrete writer with a
primary sink and one view. -/
theorem pushing_broadcast_primary_only_witness :
    PushingToViewsBlockOutputStream.writePrefixCalls ⟨some 3, [(100, 4)]⟩
        = [⟨3, .writePrefix⟩] ∧
    PushingToViewsBlockOutputStream.flushCalls ⟨some 3, [(100, 4)]⟩ = [⟨3, .flush⟩] :=
  ⟨((pushing_broadcast_primary_only ⟨some 3, [(100, 4)]⟩).2.1 3 rfl).1,
   ((pushing_broadcast_primary_only ⟨some 3, [(100, 4)]⟩).2.1 3 rfl).2.2⟩

/-! ## Theorems about the Materialized View refresh -/

theorem refresh_stamp_on_success (st : MVState) (env : RefreshEnv) (now nid : Nat)
    (h : (refresh st env now nid).error = none) :
    (refresh st env now nid).state.last_refresh_time = now := by
  obtain ⟨g, c, i, r, d⟩ := env
  cases g <;> cases c <;> cases i <;> cases r <;> cases d <;> simp_all [refresh]

theorem refresh_no_stamp_on_error (st : MVState) (env : RefreshEnv) (now nid : Nat)
    (h : (refresh st env now nid).error ≠ none) :
    (refresh st env now nid).state.last_refresh_time = st.last_refresh_time := by
  obtain ⟨g, c, i, r, d⟩ := env
  cases g <;> cases c <;> cases i <;> cases r <;> cases d <;> simp_all [refresh]

/-- **C3** (confirmed).  If a refresh raises an error after the tmp table was
created but before the rename-exchange completed (the INSERT or the exchange
itself throws), then the refresh drops the tmp table and rethrows, the member
state is unchanged (the view keeps serving the old target table), and
`last_refresh_time` is not stamped; moreover, for every environment,
`last_refresh_time` is set to `now` exactly when the whole refresh succeeds
and is left unchanged whenever it throws. -/
theorem refresh_error_cleanup (st : MVState) (env : RefreshEnv) (now new_target_id : Nat)
    (h1 : env.get_create_fails = false) (h2 : env.create_tmp_fails = false)
    (h3 : env.insert_fails = true ∨ env.rename_fails = true) :
    (refresh st env now new_target_id).error.isSome = true ∧
    (refresh st env now new_target_id).tmp_exists = false ∧
    RefreshAction.dropTmp ∈ (refresh st env now new_target_id).actions ∧
    (refresh st env now new_target_id).state = st ∧
    (∀ env' : RefreshEnv, (refresh st env' now new_target_id).error = none →
        (refresh st env' now new_target_id).state.last_refresh_time = now) ∧
    (∀ env' : RefreshEnv, (refresh st env' now new_target_id).error ≠ none →
        (refresh st env' now new_target_id).state.last_refresh_time
          = st.last_refresh_time) := by
  have hmain : (refresh st env now new_target_id).error.isSome = true ∧
      (refresh st env now new_target_id).tmp_exists = false ∧
      RefreshAction.dropTmp ∈ (refresh st env now new_target_id).actions ∧
      (refresh st env now new_target_id).state = st := by
    obtain ⟨g, c, i, r, d⟩ := env
    cases g <;> cases c <;> cases i <;> cases r <;> cases d <;> simp_all [refresh]
  exact ⟨hmain.1, hmain.2.1, hmain.2.2.1, hmain.2.2.2,
    fun env' => refresh_stamp_on_success st env' now new_target_id,
    fun env' => refresh_no_stamp_on_error st env' now new_target_id⟩

/-- Witness for `refresh_error_cleanup`: the INSERT into the tmp table throws;
the tmp table is dropped, the state (target id 1, last refresh 0) is kept. -/
theorem refresh_error_cleanup_witness :
    (refresh ⟨1, 0⟩ ⟨false, false, true, false, false⟩ 100 2).tmp_exists = false ∧
    (refresh ⟨1, 0⟩ ⟨false, false, true, false, false⟩ 100 2).state = ⟨1, 0⟩ :=
  ⟨(refresh_error_cleanup ⟨1, 0⟩ ⟨false, false, true, false, false⟩ 100 2
      rfl rfl (Or.inl rfl)).2.1,
   (refresh_error_cleanup ⟨1, 0⟩ ⟨false, false, true, false, false⟩ 100 2
      rfl rfl (Or.inl rfl)).2.2.2.1⟩

/-! ## Theorems about the External Loadable Registry -/

/-- **C4** (code bug).  The claim — in line with the spec's "`get` throws,
`tryGet` returns empty" contract — requires the two-argument `get(db, name)`
to throw on an unknown name or a stored exception.  The source instead passes
`throw_on_error = false` to `getLoadableFromDatabasesImpl`
(ExternalLoader.cpp:566), making `getLoadable(db, name)` behave exactly like
`tryGetLoadable(db, name)`: on an empty registry, `get("db", "dict")` returns
an empty pointer instead of throwing, and the two accessors agree on every
state.  The throwing branch of `getLoadableFromDatabasesImpl` is dead code,
so the `false` is a slip. -/
theorem getLoadable_two_arg_never_throws :
    getLoadable2 ⟨[], []⟩ "db" "dict" = .ok none ∧
    ∀ (st : ExternalLoaderState) (db name : String),
      getLoadable2 st db name = tryGetLoadable2 st db name :=
  ⟨rfl, fun _ _ _ => rfl⟩

/-- **C5** (corrected), counterexample.  The claim rebuilds an entry whenever
`supportUpdates ∧ isModified ∧ lifetime ≠ (0,0) ∧ now ≥ scheduled` holds.  An
entry with lifetime `(0, 5)` satisfies `lifetime ≠ (0,0)`, yet
`checkLoadableObjectToUpdate` refuses it because the source tests
`min_sec == 0 || max_sec == 0`, not `lifetime == (0,0)`. -/
theorem update_condition_counterexample :
    specUpdateCondition (fun _ => 0) 10 ⟨"d", ⟨0, 5⟩, true, true, none⟩ = true ∧
    checkLoadableObjectToUpdate (fun _ => 0) 10
      ⟨some ⟨"d", ⟨0, 5⟩, true, true, none⟩, .Filesystem, "f", none⟩ = false :=
  ⟨rfl, rfl⟩

/-- **C5** (amended).  During the update phase an entry is rebuilt via
`clone()` if and only if it holds a loadable whose lifetime has `min_sec ≠ 0`
and `max_sec ≠ 0`, that supports updates, whose scheduled update time is at or
before `now`, and that is modified.  An entry whose lifetime has
`max_sec < min_sec` is not excluded: `getNextUpdateTime` schedules it at the
epoch (time 0), so it is due for rebuild at every wake-up rather than never
rebuilt. -/
theorem check_update_characterization (update_times : String → Nat) (now : Nat)
    (object : LoadableInfo) :
    (checkLoadableObjectToUpdate update_times now object = true ↔
      ∃ current, object.loadable = some current ∧
        current.lifetime.min_sec ≠ 0 ∧ current.lifetime.max_sec ≠ 0 ∧
        current.supports_updates = true ∧ update_times current.name ≤ now ∧
        current.is_modified = true) ∧
    (∀ (l : Loadable) (now' u : Nat), l.lifetime.max_sec < l.lifetime.min_sec →
      getNextUpdateTime now' u l = 0) := by
  constructor
  · match hobj : object.loadable with
    | none => simp [checkLoadableObjectToUpdate, hobj]
    | some current =>
      simp only [checkLoadableObjectToUpdate, hobj]
      constructor
      · intro h
        refine ⟨current, rfl, ?_⟩
        by_cases h0 : (current.lifetime.min_sec == 0 || current.lifetime.max_sec == 0) = true
        · simp [h0] at h
        · by_cases hup : current.supports_updates = true
          · by_cases ht : now < update_times current.name
            · simp [h0, hup, ht] at h
            · by_cases hm : current.is_modified = true
              · simp only [Bool.or_eq_true, beq_iff_eq] at h0
                push_neg at h0
                exact ⟨h0.1, h0.2, hup, Nat.le_of_not_lt ht, hm⟩
              · simp [h0, hup, ht, hm] at h
          · simp [h0, hup] at h
      · rintro ⟨current', hc, h1, h2, h3, h4, h5⟩
        obtain rfl : current = current' := by simpa using hc
        simp [h1, h2, h3, h5, Nat.not_lt_of_le h4]
  · intro l now' u h
    simp [getNextUpdateTime, h]

/-- Witness for `check_update_characterization`: a lifetime with
`max_sec (3) < min_sec (5)` is scheduled at the epoch. -/
theorem check_update_characterization_witness :
    getNextUpdateTime 5 7 ⟨"b", ⟨5, 3⟩, true, true, none⟩ = 0 :=
  (check_update_characterization (fun _ => 0) 0
      ⟨none, .Filesystem, "", none⟩).2 ⟨"b", ⟨5, 3⟩, true, true, none⟩ 5 7
    (by decide)

theorem FailedMap.findEntry_erase (m : FailedMap) (name : String) :
    FailedMap.findEntry (m.filter (fun p => !(p.1 == name))) name = none := by
  induction m with
  | nil => rfl
  | cons p r ih =>
    by_cases h : p.1 == name
    · simp only [List.filter, h]
      exact ih
    · simp only [List.filter, h]
      simp only [FailedMap.findEntry, List.find?, h] at ih ⊢
      exact ih

/-- **C6** (confirmed).  For a persistently failing object at retry attempt
`k = error_count`, with the jitter `u` drawn from `[0, 2^k]` and the standard
setting `backoff_initial ≤ backoff_max`: the rescheduled delay equals
`min(backoff_max, backoff_initial + u)` seconds, so
`next_attempt_time − now` lies in `[backoff_initial, backoff_max]`, and
`error_count` increments by one; on a successful reconstruction the entry is
erased from the failure set, and a later failure re-registers it with
`error_count = 0`. -/
theorem retry_backoff_policy (s : ExternalLoaderUpdateSettings) (now u uUpd : Nat)
    (info : FailedLoadableInfo) (cloned : Loadable) (failed : FailedMap)
    (hdue : info.next_attempt_time ≤ now)
    (hu : u ≤ 2 ^ info.error_count)
    (hmono : s.backoff_initial_sec ≤ s.backoff_max_sec) :
    (∀ e, cloned.creation_exception = some e →
      retryFailedObject s now u uUpd info cloned =
        .failedAgain ⟨info.loadable,
          now + min s.backoff_max_sec (s.backoff_initial_sec + u),
          info.error_count + 1⟩ ∧
      s.backoff_initial_sec
          ≤ now + min s.backoff_max_sec (s.backoff_initial_sec + u) - now ∧
      now + min s.backoff_max_sec (s.backoff_initial_sec + u) - now
          ≤ s.backoff_max_sec) ∧
    (cloned.creation_exception = none →
      retryFailedObject s now u uUpd info cloned
        = .succeeded cloned (getNextUpdateTime now uUpd cloned) ∧
      FailedMap.findEntry (applyRetryOutcome failed cloned.name
          (retryFailedObject s now u uUpd info cloned)) cloned.name = none ∧
      ∀ (now2 : Nat) (obj : Loadable),
        (registerFailedObject s now2 obj).error_count = 0) := by
  have hnlt : ¬(now < info.next_attempt_time) := Nat.not_lt_of_le hdue
  constructor
  · intro e he
    refine ⟨by simp [retryFailedObject, hnlt, he], ?_, ?_⟩ <;> omega
  · intro he
    have hstep : retryFailedObject s now u uUpd info cloned
        = .succeeded cloned (getNextUpdateTime now uUpd cloned) := by
      simp [retryFailedObject, hnlt, he]
    refine ⟨hstep, ?_, fun _ _ => rfl⟩
    rw [hstep]
    exact FailedMap.findEntry_erase failed cloned.name

/-- Witness for `retry_backoff_policy`: settings `(5, 5, 600)`, attempt 0 with
jitter 1 reschedules the failing object 6 seconds out with `error_count 1`. -/
theorem retry_backoff_policy_witness :
    retryFailedObject ⟨5, 5, 600⟩ 10 1 0
        ⟨⟨"d", ⟨0, 0⟩, false, false, some "boom"⟩, 10, 0⟩
        ⟨"d", ⟨0, 0⟩, false, false, some "boom"⟩
      = .failedAgain ⟨⟨"d", ⟨0, 0⟩, false, false, some "boom"⟩, 16, 1⟩ := by
  have h := (retry_backoff_policy ⟨5, 5, 600⟩ 10 1 0
      ⟨⟨"d", ⟨0, 0⟩, false, false, some "boom"⟩, 10, 0⟩
      ⟨"d", ⟨0, 0⟩, false, false, some "boom"⟩ []
      (by decide) (by decide) (by decide)).1 "boom" rfl
  simpa using h.1

/-! ## Lemmas about the Dictionary Structure Schema -/

theorem parseAttributeElem_ok_facts (an : Bool) (e : AttributeConfig)
    (attr : DictionaryAttribute) (h : parseAttributeElem an e = .ok attr) :
    badAttrElem e = false ∧ attr.hierarchical = cfgGetBoolD e "hierarchical" false := by
  unfold parseAttributeElem at h
  split at h
  · simp at h
  · rename_i u hck
    split at h
    · simp at h
    · rename_i name hname
      split at h
      · simp at h
      · rename_i type_string htype
        split at h
        · simp at h
        · rename_i underlying_type hut
          split at h
          · simp at h
          · rename_i null_value hnv
            split at h
            · simp at h
            · rename_i hne
              rw [Bool.not_eq_true] at hne
              have hattr : attr = ⟨name, underlying_type, type_string,
                  cfgGetStringD e "expression" "", null_value,
                  cfgGetBoolD e "hierarchical" false, cfgGetBoolD e "injective" false,
                  cfgGetBoolD e "is_object_id" false⟩ := by
                cases h; rfl
              subst hattr
              refine ⟨?_, rfl⟩
              have hkeys : (e.map Prod.fst).any
                  (fun k => !(validAttributeKeys.contains k)) = false := by
                unfold checkAttributeKeys at hck
                cases hfind : (e.map Prod.fst).find?
                    (fun k => !(validAttributeKeys.contains k)) with
                | some k => rw [hfind] at hck; simp at hck
                | none =>
                  have hall := List.find?_eq_none.mp hfind
                  cases hany : (e.map Prod.fst).any
                      (fun k => !(validAttributeKeys.contains k)) with
                  | false => rfl
                  | true =>
                    obtain ⟨k, hk, hkp⟩ := List.any_eq_true.mp hany
                    exact absurd hkp (by simpa using hall k hk)
              unfold badAttrElem
              rw [hkeys, hname, htype]
              simp [hne, hut]

theorem getAttributesGo_cons_attr_inv (ha an hh he : Bool) (ename : String)
    (e : AttributeConfig) (rest : List (String × AttributeConfig))
    (l : List DictionaryAttribute) (he' : Bool)
    (hpre : strStartsWith "attribute" ename = true)
    (hok : getAttributesGo ha an hh he ((ename, e) :: rest) = .ok (l, he')) :
    ∃ attr, parseAttributeElem an e = .ok attr ∧
      (hh && !ha) = false ∧ (hh && attr.hierarchical) = false ∧
      ∃ l2, getAttributesGo ha an (hh || attr.hierarchical)
          (he || !attr.expression.isEmpty) rest = .ok (l2, he') ∧
        l = attr :: l2 := by
  simp only [getAttributesGo, hpre, if_true] at hok
  cases hp : parseAttributeElem an e with
  | error er => rw [hp] at hok; simp at hok
  | ok attr =>
    rw [hp] at hok
    by_cases h1 : (hh && !ha) = true
    · simp [h1] at hok
    · rw [Bool.not_eq_true] at h1
      simp only [h1, Bool.false_eq_true, if_false] at hok
      by_cases h2 : (hh && attr.hierarchical) = true
      · simp [h2] at hok
      · rw [Bool.not_eq_true] at h2
        simp only [h2, Bool.false_eq_true, if_false] at hok
        cases hrec : getAttributesGo ha an (hh || attr.hierarchical)
            (he || !attr.expression.isEmpty) rest with
        | error er => rw [hrec] at hok; simp at hok
        | ok pr =>
          obtain ⟨attrs, he2⟩ := pr
          rw [hrec] at hok
          obtain ⟨rfl, rfl⟩ : attr :: attrs = l ∧ he2 = he' := by
            simpa using hok
          exact ⟨attr, rfl, h1, h2, attrs, hrec, rfl⟩

theorem getAttributesGo_skip (ha an hh he : Bool) (ename : String)
    (e : AttributeConfig) (rest : List (String × AttributeConfig))
    (hpre : strStartsWith "attribute" ename = false) :
    getAttributesGo ha an hh he ((ename, e) :: rest)
      = getAttributesGo ha an hh he rest := by
  simp [getAttributesGo, hpre]

theorem getAttributesGo_ok_noBad (ha an : Bool) :
    ∀ (elems : List (String × AttributeConfig)) (hh he : Bool)
      (l : List DictionaryAttribute) (he' : Bool),
      getAttributesGo ha an hh he elems = .ok (l, he') →
      hasBadAttrElem elems = false := by
  intro elems
  induction elems with
  | nil => intro _ _ _ _ _; rfl
  | cons q rest ih =>
    intro hh he l he' hok
    obtain ⟨ename, e⟩ := q
    by_cases hpre : (strStartsWith "attribute" ename) = true
    · obtain ⟨attr, hp, _, _, l2, hrec, rfl⟩ :=
        getAttributesGo_cons_attr_inv ha an hh he ename e rest _ he' hpre hok
      have hbad := (parseAttributeElem_ok_facts an e attr hp).1
      have hrest := ih _ _ _ _ hrec
      simp [hasBadAttrElem, List.any_cons, hpre, hbad] at hrest ⊢
      exact hrest
    · rw [Bool.not_eq_true] at hpre
      rw [getAttributesGo_skip ha an hh he ename e rest hpre] at hok
      have hrest := ih _ _ _ _ hok
      simp [hasBadAttrElem, List.any_cons, hpre] at hrest ⊢
      exact hrest

theorem getAttributesGo_ok_hier (ha an : Bool) :
    ∀ (elems : List (String × AttributeConfig)) (hh he : Bool)
      (l : List DictionaryAttribute) (he' : Bool),
      getAttributesGo ha an hh he elems = .ok (l, he') →
      countHier elems + (if hh then 1 else 0) ≤ 1 := by
  intro elems
  induction elems with
  | nil => intro hh _ _ _ _; cases hh <;> simp [countHier]
  | cons q rest ih =>
    intro hh he l he' hok
    obtain ⟨ename, e⟩ := q
    by_cases hpre : (strStartsWith "attribute" ename) = true
    · obtain ⟨attr, hp, _, h2, l2, hrec, rfl⟩ :=
        getAttributesGo_cons_attr_inv ha an hh he ename e rest _ he' hpre hok
      have hhier := (parseAttributeElem_ok_facts an e attr hp).2
      have hrest := ih _ _ _ _ hrec
      simp only [countHier, List.filter_cons, hpre, Bool.true_and, ← hhier] at hrest ⊢
      cases hab : attr.hierarchical with
      | false =>
        rw [hab] at hrest
        cases hh <;> simpa using hrest
      | true =>
        rw [hab] at hrest h2
        cases hh with
        | false => simpa using hrest
        | true => simp at h2
    · rw [Bool.not_eq_true] at hpre
      rw [getAttributesGo_skip ha an hh he ename e rest hpre] at hok
      have hrest := ih _ _ _ _ hok
      simpa [countHier, List.filter_cons, hpre] using hrest

theorem getAttributesGo_ok_length (ha an : Bool) :
    ∀ (elems : List (String × AttributeConfig)) (hh he : Bool)
      (l : List DictionaryAttribute) (he' : Bool),
      getAttributesGo ha an hh he elems = .ok (l, he') →
      l.length = (elems.filter (fun p => strStartsWith "attribute" p.1)).length := by
  intro elems
  induction elems with
  | nil =>
    intro _ _ l _ hok
    simp only [getAttributesGo] at hok
    obtain ⟨h1, -⟩ : ([] : List DictionaryAttribute) = l ∧ _ := by simpa using hok
    simp [← h1]
  | cons q rest ih =>
    intro hh he l he' hok
    obtain ⟨ename, e⟩ := q
    by_cases hpre : (strStartsWith "attribute" ename) = true
    · obtain ⟨attr, hp, _, _, l2, hrec, rfl⟩ :=
        getAttributesGo_cons_attr_inv ha an hh he ename e rest _ he' hpre hok
      have hrest := ih _ _ _ _ hrec
      simp [List.filter_cons, hpre, hrest]
    · rw [Bool.not_eq_true] at hpre
      rw [getAttributesGo_skip ha an hh he ename e rest hpre] at hok
      have hrest := ih _ _ _ _ hok
      simp [List.filter_cons, hpre, hrest]

theorem makeDictionaryTypedSpecialAttribute_type (e : AttributeConfig) (d : String)
    (r : DictionaryTypedSpecialAttribute)
    (h : makeDictionaryTypedSpecialAttribute e d = .ok r) :
    r.type = cfgGetStringD e "type" d := by
  unfold makeDictionaryTypedSpecialAttribute at h
  by_cases hc : ((cfgGetStringD e "name" "").isEmpty
      && !(cfgGetStringD e "expression" "").isEmpty) = true
  · simp [hc] at h
  · rw [Bool.not_eq_true] at hc
    simp only [hc, Bool.false_eq_true, if_false] at h
    cases h; rfl

theorem rangeParse_inv (o : Option AttributeConfig)
    (r : Option DictionaryTypedSpecialAttribute)
    (h : (match o with
          | some e => (makeDictionaryTypedSpecialAttribute e "Date").map some
          | none => Except.ok none) = .ok r) :
    (o = none ∧ r = none) ∨
    (∃ e rr, o = some e ∧ r = some rr ∧ rr.type = resolvedRangeType e) := by
  cases o with
  | none =>
    left
    refine ⟨rfl, ?_⟩
    simpa using h.symm
  | some e =>
    right
    have h' : (makeDictionaryTypedSpecialAttribute e "Date").map some = .ok r := h
    cases hm : makeDictionaryTypedSpecialAttribute e "Date" with
    | error er => rw [hm] at h'; simp [Except.map] at h'
    | ok rr =>
      rw [hm] at h'
      obtain rfl : some rr = r := by simpa [Except.map] using h'
      exact ⟨e, rr, rfl, rfl, makeDictionaryTypedSpecialAttribute_type e "Date" rr hm⟩

theorem makeDictionaryStructureTail_ok (id : Option DictionarySpecialAttribute)
    (key : Option (List DictionaryAttribute))
    (rmin rmax : Option DictionaryTypedSpecialAttribute) (he : Bool)
    (elems : List (String × AttributeConfig)) (s : DictionaryStructure)
    (h : makeDictionaryStructureTail id key rmin rmax he elems = .ok s) :
    hasBadAttrElem elems = false ∧ countHier elems ≤ 1 ∧
    (elems.filter (fun p => strStartsWith "attribute" p.1)).isEmpty = false := by
  unfold makeDictionaryStructureTail at h
  split at h
  · simp at h
  · rename_i attrs he2 hga
    split at h
    · simp at h
    · rename_i hemp
      refine ⟨getAttributesGo_ok_noBad true true elems false he attrs he2 hga, ?_, ?_⟩
      · have := getAttributesGo_ok_hier true true elems false he attrs he2 hga
        simpa using this
      · have hlen := getAttributesGo_ok_length true true elems false he attrs he2 hga
        cases hfe : (elems.filter (fun p => strStartsWith "attribute" p.1)).isEmpty with
        | false => rfl
        | true =>
          exfalso
          apply hemp
          have : (elems.filter (fun p => strStartsWith "attribute" p.1)) = [] :=
            List.isEmpty_iff.mp hfe
          rw [this] at hlen
          simpa [List.isEmpty_iff, List.length_eq_zero] using hlen

/-- **C7** (amended).  `DictionaryStructure` construction rejects every
configuration that has both `id` and `key`, or neither; whose main attribute
list is empty; that contains an attribute section (in the main list or inside
`key`) with an unknown key, an empty name, or an unknown type; that declares
more than one hierarchical attribute (in the main list or inside `key`); or —
in id form, where the range elements are read — whose `range_min`/`range_max`
are present unequally or resolve to different types. -/
theorem dictionary_structure_rejections (cfg : DictionaryConfig)
    (hbad : specBadDictConfig cfg = true) :
    dictResultIsError (makeDictionaryStructure cfg) = true := by
  cases hmk : makeDictionaryStructure cfg with
  | error er => rfl
  | ok s =>
    exfalso
    unfold makeDictionaryStructure at hmk
    split at hmk
    · simp at hmk
    · rename_i hboth
      split at hmk
      · -- id form
        rename_i idElem hid
        split at hmk
        · simp at hmk
        · rename_i idAttr hsp
          split at hmk
          · simp at hmk
          · rename_i hnm
            split at hmk
            · simp at hmk
            · rename_i range_min hrm
              split at hmk
              · simp at hmk
              · rename_i range_max hrM
                split at hmk
                · simp at hmk
                · rename_i hneq
                  split at hmk
                  · simp at hmk
                  · rename_i hty
                    split at hmk
                    · simp at hmk
                    · rename_i hint
                      have hkn : cfg.keyElems = none := by
                        rw [hid] at hboth
                        cases hk : cfg.keyElems with
                        | none => rfl
                        | some k => rw [hk] at hboth; simp at hboth
                      have htail := makeDictionaryStructureTail_ok _ _ _ _ _ _ _ hmk
                      have hrm' := rangeParse_inv cfg.rangeMin range_min hrm
                      have hrM' := rangeParse_inv cfg.rangeMax range_max hrM
                      have hrangeFalse :
                          ((cfg.rangeMin.isSome != cfg.rangeMax.isSome)
                            || (match cfg.rangeMin, cfg.rangeMax with
                                | some rmin, some rmax =>
                                  resolvedRangeType rmin != resolvedRangeType rmax
                                | _, _ => false)) = false := by
                        rcases hrm' with ⟨ho1, hr1⟩ | ⟨e1, r1, ho1, hr1, hty1⟩ <;>
                          rcases hrM' with ⟨ho2, hr2⟩ | ⟨e2, r2, ho2, hr2, hty2⟩
                        · rw [ho1, ho2]; rfl
                        · rw [hr1, hr2] at hneq; simp at hneq
                        · rw [hr1, hr2] at hneq; simp at hneq
                        · rw [ho1, ho2]
                          rw [hr1, hr2] at hty
                          have heqt : r1.type = r2.type := by simpa using hty
                          simp only [← hty1, ← hty2, heqt]
                          simp
                      have h6 : decide (2 ≤ countHier cfg.elems) = false :=
                        decide_eq_false (by have := htail.2.1; omega)
                      unfold specBadDictConfig at hbad
                      rw [hid, hkn] at hbad
                      simp only [htail.1, htail.2.2, h6, hrangeFalse] at hbad
                      simp [hasBadAttrElem, countHier] at hbad
      · -- key (or neither) form
        rename_i hid
        split at hmk
        · rename_i keyElems hkey
          split at hmk
          · simp at hmk
          · rename_i keyAttrs heKey hga
            split at hmk
            · simp at hmk
            · rename_i hkemp
              have htail := makeDictionaryStructureTail_ok _ _ _ _ _ _ _ hmk
              have hkb := getAttributesGo_ok_noBad false false keyElems false false
                keyAttrs heKey hga
              have hkh := getAttributesGo_ok_hier false false keyElems false false
                keyAttrs heKey hga
              have h6 : decide (2 ≤ countHier cfg.elems) = false :=
                decide_eq_false (by have := htail.2.1; omega)
              have h7 : decide (2 ≤ countHier keyElems) = false :=
                decide_eq_false (by simp at hkh; omega)
              unfold specBadDictConfig at hbad
              rw [hid, hkey] at hbad
              simp only [htail.1, htail.2.2, h6, h7, hkb] at hbad
              simp at hbad
              rcases hbad with h | h
              · rw [hkb] at h; exact absurd h (by simp)
              · simp at h7; omega
        · simp at hmk

/-- **C7** (corrected), counterexample.  The claim says construction rejects
every configuration in which only one of `range_min`/`range_max` is present.
The range checks are inside the `if (id)` block, so a key-form configuration
carrying only `range_min` is accepted: `keyFormRangeConfig` has `range_min`
and no `range_max`, and its construction succeeds. -/
theorem dictionary_structure_range_counterexample :
    keyFormRangeConfig.rangeMin.isSome = true ∧
    keyFormRangeConfig.rangeMax = none ∧
    dictResultIsError (makeDictionaryStructure keyFormRangeConfig) = false :=
  ⟨rfl, rfl, by decide⟩

/-- Witness for `dictionary_structure_rejections` at a configuration carrying
both `id` and `key` (spec end-to-end scenario 6). -/
theorem dictionary_structure_rejections_witness :
    dictResultIsError (makeDictionaryStructure
      ⟨some [("name", "i")], some [], none, none, []⟩) = true :=
  dictionary_structure_rejections ⟨some [("name", "i")], some [], none, none, []⟩
    (by decide)

theorem validateKeyTypesLoop_no_ub :
    ∀ (i : Nat) (key : List DictionaryAttribute) (kt : List String),
      validateKeyTypesLoop i key kt ≠ .error .undefinedBehaviour := by
  intro i key
  induction key generalizing i with
  | nil => intro kt; simp [validateKeyTypesLoop]
  | cons a as ih =>
    intro kt
    cases kt with
    | nil => simp [validateKeyTypesLoop]
    | cons t ts =>
      by_cases h : (a.type != t) = true
      · simp [validateKeyTypesLoop, h]
      · rw [Bool.not_eq_true] at h
        simp [validateKeyTypesLoop, h, ih]

/-- **C10** (confirmed).  `validateKeyTypes` and `getKeySize` dereference the
optional `key` member unconditionally.  Under the precondition that the schema
is composite-key (`key` present) the undefined-behaviour branch is
unreachable: both functions complete without it (`validateKeyTypes` can only
return `ok` or a type-mismatch error).  For every id-form schema (`key`
absent) both functions hit the dereference of the empty optional, i.e.
undefined behaviour at the public interface. -/
theorem key_accessors_safe_iff_composite (s : DictionaryStructure) (kt : List String) :
    (s.key.isSome = true →
        validateKeyTypes s kt ≠ .error .undefinedBehaviour ∧
        getKeySize s ≠ .error .undefinedBehaviour) ∧
    (s.key = none →
        validateKeyTypes s kt = .error .undefinedBehaviour ∧
        getKeySize s = .error .undefinedBehaviour) := by
  constructor
  · intro hks
    obtain ⟨k, hk⟩ := Option.isSome_iff_exists.mp hks
    constructor
    · unfold validateKeyTypes
      rw [hk]
      simp only [derefKey]
      by_cases h : (kt.length != k.length) = true
      · simp [h]
      · rw [Bool.not_eq_true] at h
        simp [h, validateKeyTypesLoop_no_ub]
    · unfold getKeySize
      rw [hk]
      simp [derefKey]
  · intro hk
    unfold validateKeyTypes getKeySize
    rw [hk]
    exact ⟨rfl, rfl⟩

/-- Witness for `key_accessors_safe_iff_composite`: an id-form schema hits the
undefined dereference; a one-column composite-key schema does not. -/
theorem key_accessors_safe_iff_composite_witness :
    validateKeyTypes ⟨some ⟨"i", ""⟩, none, none, none, [], false⟩ []
        = .error .undefinedBehaviour ∧
    validateKeyTypes
        ⟨none, some [⟨"k", .UInt64, "UInt64", "", none, false, false, false⟩],
         none, none, [], false⟩ ["UInt64"]
      ≠ .error .undefinedBehaviour :=
  ⟨((key_accessors_safe_iff_composite ⟨some ⟨"i", ""⟩, none, none, none, [], false⟩
      []).2 rfl).1,
   ((key_accessors_safe_iff_composite
      ⟨none, some [⟨"k", .UInt64, "UInt64", "", none, false, false, false⟩],
       none, none, [], false⟩ ["UInt64"]).1 rfl).1⟩

/-! ## Theorems about the Aggregating In-Memory Table -/

/-- **C8** (code bug).  The claim — matching the source's own TODO comments
`// TODO drop aggregator state` and `// TODO clear aggregator state` — says
`drop` and `truncate` deallocate the aggregation state so a subsequent read
observes none of the previously aggregated data.  The bodies of both methods
are empty: after writing a block and then dropping or truncating, a read
still returns the previously aggregated data, and both methods are the
identity on the storage state. -/
theorem aggregating_drop_truncate_noop :
    (StorageAggregatingMemory.read
        (StorageAggregatingMemory.drop
          (StorageAggregatingMemory.write (fun x => x) ⟨[]⟩ 42)) = [42] ∧
     StorageAggregatingMemory.read
        (StorageAggregatingMemory.truncate
          (StorageAggregatingMemory.write (fun x => x) ⟨[]⟩ 42)) = [42]) ∧
    ∀ st : StorageAggregatingMemory,
      StorageAggregatingMemory.drop st = st ∧
      StorageAggregatingMemory.truncate st = st :=
  ⟨⟨rfl, rfl⟩, fun _ => ⟨rfl, rfl⟩⟩

end ClickHouse
